import Mathlib

/-!
# Verification of `metpy/readers/mesonet.py`

A shallow embedding of the Oklahoma Mesonet reader module
(`src/trunk/metpy/readers/mesonet.py`) together with theorems settling the
specification claims about it.

Conventions of the embedding:
* Python `datetime.datetime` objects are modelled by the `Datetime` structure
  (integer fields, no calendar normalisation; none of the verified code paths
  depends on calendar arithmetic).
* The masked numeric table produced by `mloadtxt` is modelled column-wise:
  each cell is a `(Value, Bool)` pair whose `Bool` is the numpy mask flag
  (`true` = masked/invalid).
* Fallible Python code (NameError, KeyError, ValueError, IndexError, parse
  failures) is modelled with `Except PyErr`.
* Collaborators that live in `metpy.cbook` (not part of the source file under
  verification) — `mloadtxt`, `lru_cache`, `rec_append_fields` — are modelled
  from the specification; their doc comments say so explicitly.
-/

set_option autoImplicit false

namespace Mesonet

/-- Python exception kinds that the embedded code can raise. -/
inductive PyErr where
  | nameError
  | keyError
  | valueError
  | indexError
  | typeError
  | parseError
  deriving DecidableEq, Repr

/-- The date part of a Python `datetime` (as built by `datetime(y, m, d)` on
line 201 of the source).  Range validation performed by the `datetime`
constructor is not modelled; all dates in scope are valid. -/
structure Date where
  year : Int
  month : Int
  day : Int
  deriving DecidableEq, Repr

/-- A timestamp produced by `dt + timedelta(minutes=t)` (source line 203):
the reference date of the file plus an offset in minutes.  Kept abstract
(no normalisation into hours/days): the verified properties only compare
timestamps built the same way. -/
structure Timestamp where
  date : Date
  minutes : Int
  deriving DecidableEq, Repr

/-- A full Python `datetime.datetime` as used by `_fetch_mesonet_data`. -/
structure Datetime where
  year : Int
  month : Int
  day : Int
  hour : Int
  minute : Int
  second : Int
  microsecond : Int
  deriving DecidableEq, Repr

/-- A cell value of the parsed table: raw numeric token, raw string token
(e.g. the STID column), or a converted timestamp. -/
inductive Value where
  | intV (i : Int)
  | strV (s : String)
  | dtV (t : Timestamp)
  deriving DecidableEq, Repr

/-- Default value used with `List.getD`; never observed on in-bounds access. -/
def vDefault : Value := Value.strV ""

/-- One named column of the table; each cell is `(value, maskFlag)` with
`maskFlag = true` meaning the cell is masked (invalid). -/
structure Column where
  name : String
  cells : List (Value × Bool)
  deriving DecidableEq, Repr

/-- The masked record array returned by `mloadtxt`: an ordered sequence of
named columns. -/
structure Table where
  cols : List Column
  deriving DecidableEq, Repr

/-- ASCII uppercase of one character.  Python `str.upper` on the ASCII
field codes and station ids used by the module. -/
def charUpper (c : Char) : Char :=
  if 'a' ≤ c ∧ c ≤ 'z' then Char.ofNat (c.toNat - 32) else c

/-- Python `str.upper` (all names in scope are ASCII). -/
def strUpper (s : String) : String := String.mk (s.data.map charUpper)

/-- ASCII lowercase of one character. -/
def charLower (c : Char) : Char :=
  if 'A' ≤ c ∧ c ≤ 'Z' then Char.ofNat (c.toNat + 32) else c

/-- Python `str.lower` (all names in scope are ASCII). -/
def strLower (s : String) : String := String.mk (s.data.map charLower)

/-! ## Variable-name maps (source lines 20–25) -/

/-- `mesonet_var_map` (source lines 20–23): map of standard variable names to
the codes used by the mesonet.  Modelled as an association list in literal
order; all keys are distinct, so first-match lookup agrees with Python dict
lookup. -/
def mesonet_var_map : List (String × String) :=
  [("temperature", "TAIR"), ("relative humidity", "RELH"),
   ("wind speed", "WSPD"), ("wind direction", "WDIR"), ("rainfall", "RAIN"),
   ("pressure", "PRES"), ("site", "STID"), ("solar radiation", "SRAD"),
   ("wind gusts", "WMAX")]

/-- `mesonet_inv_var_map` (source lines 24–25):
`dict(zip(mesonet_var_map.values(), mesonet_var_map.keys()))`. -/
def mesonet_inv_var_map : List (String × String) :=
  mesonet_var_map.map (fun p => (p.2, p.1))

/-- Python `d.get(k)` on an association list with distinct keys. -/
def dictGet (d : List (String × String)) (k : String) : Option String :=
  (d.find? (fun p => p.1 = k)).map (fun p => p.2)

/-! ## The missing-value band (source lines 31 and 208) -/

/-- `BAD_DATA_LIMIT` (source line 31). -/
def BAD_DATA_LIMIT : Int := -990

/-- `FUTURE_OBSERVATION` (source line 32). -/
def FUTURE_OBSERVATION : Int := -996

/-- Python `range(start, stop, -1)` for a descending step of `-1`:
`[start, start - 1, ..., stop + 1]`. -/
def pyRangeNeg (start stop : Int) : List Int :=
  (List.range (start - stop).toNat).map (fun (k : Nat) => start - (k : Int))

/-- The `missing` list of source line 208:
`range(BAD_DATA_LIMIT, BAD_DATA_LIMIT - 10, -1)`. -/
def missingValues : List Int := pyRangeNeg BAD_DATA_LIMIT (BAD_DATA_LIMIT - 10)

/-- Mask decision applied by `mloadtxt` to each raw token: a numeric token
equal to one of the `missing` values is masked; other tokens are not
masked by this rule. -/
def maskCell (missing : List Int) (raw : Value) : Bool :=
  match raw with
  | Value.intV i => decide (i ∈ missing)
  | _ => false

/-! ## Theorems for claims C8 and C4 -/

/-- Every entry of the concrete inverse map round-trips through the forward
map (checked by evaluation over the nine entries). -/
theorem invVarMapEntriesRoundTrip :
    ∀ p ∈ mesonet_inv_var_map, dictGet mesonet_var_map p.2 = some p.1 := by
  decide

/-- C8: for every raw field code in the inverse field-name map, mapping it to
its canonical name and then mapping that canonical name back through the
forward map returns the same raw code. -/
theorem invVarMapRoundTrip (raw canon : String)
    (h : dictGet mesonet_inv_var_map raw = some canon) :
    dictGet mesonet_var_map canon = some raw := by
  unfold dictGet at h
  cases hf : List.find? (fun p => p.1 = raw) mesonet_inv_var_map with
  | none => rw [hf] at h; simp at h
  | some pr =>
    rw [hf] at h
    simp only [Option.map_some'] at h
    have hmem : pr ∈ mesonet_inv_var_map := List.mem_of_find?_eq_some hf
    have hkey : pr.1 = raw := by
      have := List.find?_some hf
      simpa using this
    have hc : pr.2 = canon := by simpa using h
    have hrt := invVarMapEntriesRoundTrip pr hmem
    rw [hkey, hc] at hrt
    exact hrt

/-- Witness for C8 at a concrete entry: `STID` maps back and forth. -/
theorem invVarMapRoundTrip_witness :
    dictGet mesonet_var_map "site" = some "STID" :=
  invVarMapRoundTrip "STID" "site" (by decide)

/-- The band membership test, spelled out. -/
theorem missingValuesMem (i : Int) :
    i ∈ missingValues ↔ (-999 ≤ i ∧ i ≤ -990) := by
  unfold missingValues pyRangeNeg BAD_DATA_LIMIT
  rw [List.mem_map]
  constructor
  · rintro ⟨k, hk, hke⟩
    rw [List.mem_range] at hk
    omega
  · rintro ⟨h1, h2⟩
    refine ⟨(-990 - i).toNat, ?_, ?_⟩
    · rw [List.mem_range]; omega
    · omega

/-- C4: a parsed cell is masked exactly when its raw token is a numeric value
in the band {−990, …, −999}; string and timestamp tokens are never masked by
this rule. -/
theorem missingBandSpec :
    (∀ i : Int,
        maskCell missingValues (Value.intV i) = decide (-999 ≤ i ∧ i ≤ -990))
    ∧ (∀ s : String, maskCell missingValues (Value.strV s) = false)
    ∧ (∀ t : Timestamp, maskCell missingValues (Value.dtV t) = false) := by
  refine ⟨fun i => ?_, fun s => rfl, fun t => rfl⟩
  unfold maskCell
  exact decide_eq_decide.mpr (missingValuesMem i)

/-! ## The record parser (`read_mesonet_data`, source lines 136–238)

The text stream is modelled after tokenisation: line 1 is the free-form
title, line 2 the list of whitespace-separated tokens (already parsed to
integers; the date sits at positions 1–3), line 3 the column-name header,
and the remaining lines the data rows, one `Value` token per column. -/

/-- A tokenised mesonet data file (the stream handed to
`read_mesonet_data`). -/
structure MesonetFile where
  title : String
  info : List Int
  header : List String
  rows : List (List Value)
  deriving DecidableEq, Repr

/-- One row of the station-information table produced by
`mesonet_stid_info` (source lines 240–260).  The body of the embedded
station CSV is elided in the source copy (only its header placeholder line
survives), so the loaded table is passed as a parameter wherever
`mesonet_stid_info()` is called. -/
structure StationRec where
  stid : String
  lat : Value
  lon : Value
  elev : Value
  deriving DecidableEq, Repr

/-- `Except`-valued `mapM` over a list, written as plain recursion so that
its success conditions can be characterised by the lemmas below. -/
def mapMExc {α β : Type} (f : α → Except PyErr β) : List α → Except PyErr (List β)
  | [] => Except.ok []
  | a :: as =>
    match f a, mapMExc f as with
    | Except.ok b, Except.ok bs => Except.ok (b :: bs)
    | Except.error e, _ => Except.error e
    | Except.ok _, Except.error e => Except.error e

/-- The `TIME` converter of source line 203:
`lambda t: dt + timedelta(minutes=int(t))`.  `int(t)` on a non-numeric
token raises. -/
def timeConv (d : Date) (raw : Value) : Except PyErr Value :=
  match raw with
  | Value.intV t => Except.ok (Value.dtV ⟨d, t⟩)
  | _ => Except.error PyErr.valueError

/-- Apply the converters dictionary to one raw token of the named column. -/
def applyConv (conv : String → Option (Value → Except PyErr Value))
    (name : String) (raw : Value) : Except PyErr Value :=
  match conv name with
  | some f => f raw
  | none => Except.ok raw

/-- Build one output column: convert every raw token and attach the mask
flag computed from the raw token. -/
def buildColumn (conv : String → Option (Value → Except PyErr Value))
    (missing : List Int) (name : String) (raws : List Value) :
    Except PyErr Column :=
  (mapMExc (fun raw =>
      (applyConv conv name raw).map (fun v => (v, maskCell missing raw)))
    raws).map (fun cells => ⟨name, cells⟩)

/-- Column-selection test of `usecols`: keep a column when no selection is
given, or when its name matches a requested field ignoring case. -/
def keepCol (usecols : Option (List String)) (name : String) : Bool :=
  match usecols with
  | none => true
  | some fs => (fs.map strUpper).contains (strUpper name)

/-- Modelled from the spec: `mloadtxt` from `metpy.cbook` (only imported by
the source file, its definition is not under src/).  Per the spec it reads
the header row of column names (`names=True`), retains only the requested
columns (case-insensitive match, in file order), applies the per-column
converters, masks every cell whose raw token is one of the `missing`
values, and fails on a column-count mismatch between header and data
rows. -/
def mloadtxt (header : List String) (rows : List (List Value))
    (usecols : Option (List String))
    (conv : String → Option (Value → Except PyErr Value))
    (missing : List Int) : Except PyErr Table :=
  if rows.all (fun r => r.length = header.length) then
    (mapMExc (fun i =>
        buildColumn conv missing (header.getD i "")
          (rows.map (fun r => r.getD i vDefault)))
      ((List.range header.length).filter
        (fun i => keepCol usecols (header.getD i "")))).map
      (fun cols => ⟨cols⟩)
  else Except.error PyErr.parseError

/-- Source lines 214–218: rename every column name through
`mesonet_inv_var_map` (`.get` with the name itself as fallback), matching
case-insensitively on the raw side. -/
def renameFields (t : Table) : Table :=
  ⟨t.cols.map (fun c =>
    ⟨(dictGet mesonet_inv_var_map (strUpper c.name)).getD c.name, c.cells⟩)⟩

/-- Source lines 221–225: `names.index('TIME')` followed by renaming that
position to `'datetime'`.  Python's `list.index` returns the first
occurrence and raises `ValueError` when absent; this recursion renames the
first column called `TIME` and errors when there is none. -/
def renameTimeCols : List Column → Except PyErr (List Column)
  | [] => Except.error PyErr.valueError
  | c :: cs =>
    if c.name = "TIME" then Except.ok (⟨"datetime", c.cells⟩ :: cs)
    else (renameTimeCols cs).map (fun cs' => c :: cs')

/-- `numpy.searchsorted` (side `'left'`) over a sorted list of station ids:
the number of entries strictly below the key. -/
def searchsorted (xs : List String) (key : String) : Nat :=
  (xs.takeWhile (fun x => decide (x < key))).length

/-- `sta_table['Lat'][station_indices]` style fancy indexing: fails
(IndexError) when an index is out of range. -/
def fancyIndex (xs : List Value) (idxs : List Nat) : Except PyErr (List Value) :=
  mapMExc (fun i =>
    match xs.get? i with
    | some v => Except.ok v
    | none => Except.error PyErr.indexError) idxs

/-- Source lines 229–236: look up each row's station id in the station
table and append `latitude`, `longitude`, `elevation` columns
(`rec_append_fields`, modelled from the spec: appends the new columns after
the existing ones with unmasked cells).  `data['STID']` raises a field
error when no column has that exact name. -/
def lookupStids (sta : List StationRec) (data : Table) : Except PyErr Table :=
  match data.cols.find? (fun c => c.name = "STID") with
  | none => Except.error PyErr.keyError
  | some stidCol =>
    let stidList := sta.map (fun r => r.stid)
    let keys := stidCol.cells.map (fun cell =>
      match cell.1 with
      | Value.strV s => s
      | _ => "")
    let idxs := keys.map (fun s => searchsorted stidList s)
    match fancyIndex (sta.map (fun r => r.lat)) idxs,
          fancyIndex (sta.map (fun r => r.lon)) idxs,
          fancyIndex (sta.map (fun r => r.elev)) idxs with
    | Except.ok lat, Except.ok lon, Except.ok elev =>
      Except.ok ⟨data.cols ++
        [⟨"latitude", lat.map (fun v => (v, false))⟩,
         ⟨"longitude", lon.map (fun v => (v, false))⟩,
         ⟨"elevation", elev.map (fun v => (v, false))⟩]⟩
    | Except.error e, _, _ => Except.error e
    | _, Except.error e, _ => Except.error e
    | _, _, Except.error e => Except.error e

/-- `read_mesonet_data` (source lines 136–238) on an already-tokenised
stream.  `sta` is the station table that `mesonet_stid_info()` would
load (its embedded CSV body is elided in the source copy). -/
def read_mesonet_data (file : MesonetFile) (fields : Option (List String))
    (rename_fields convert_time lookup_stids : Bool)
    (sta : List StationRec) : Except PyErr Table :=
  let fieldsU := fields.map (fun fs => fs.map strUpper)
  let refDate : Except PyErr (Option Date) :=
    if convert_time then
      match file.info.drop 1 with
      | y :: m :: d :: _ => Except.ok (some ⟨y, m, d⟩)
      | _ => Except.error PyErr.typeError
    else Except.ok none
  match refDate with
  | Except.error e => Except.error e
  | Except.ok rd =>
    let conv : String → Option (Value → Except PyErr Value) := fun n =>
      match rd with
      | some d => if n = "TIME" then some (timeConv d) else none
      | none => none
    match mloadtxt file.header file.rows fieldsU conv missingValues with
    | Except.error e => Except.error e
    | Except.ok data0 =>
      let data1 := if rename_fields then renameFields data0 else data0
      let data2 : Except PyErr Table :=
        if convert_time then
          (renameTimeCols data1.cols).map (fun cols => ⟨cols⟩)
        else Except.ok data1
      match data2 with
      | Except.error e => Except.error e
      | Except.ok data3 =>
        if lookup_stids then lookupStids sta data3 else Except.ok data3

/-! ## `get_last_time` (source lines 262–280) -/

/-- Elementwise `data[ref_field].data != FUTURE_OBSERVATION`: the raw value
is compared ignoring the mask flag; non-numeric raw values are never equal
to the integer sentinel. -/
def rawNe996 (v : Value) : Bool :=
  match v with
  | Value.intV i => decide (i ≠ FUTURE_OBSERVATION)
  | _ => true

/-- `get_last_time` (source lines 262–280): select the timestamps of the
rows whose reference-column raw value is not `FUTURE_OBSERVATION` and
return the last one; `[-1]` on an empty selection raises IndexError, an
absent field name raises a field error. -/
def get_last_time (data : Table) (ref_field dt_field : String) :
    Except PyErr Value :=
  match data.cols.find? (fun c => c.name = ref_field) with
  | none => Except.error PyErr.keyError
  | some refCol =>
    match data.cols.find? (fun c => c.name = dt_field) with
    | none => Except.error PyErr.keyError
    | some dtCol =>
      let mask := refCol.cells.map (fun cell => rawNe996 cell.1)
      let selected := (((dtCol.cells.map Prod.fst).zip mask).filter
        (fun p => p.2)).map Prod.fst
      match selected.getLast? with
      | some v => Except.ok v
      | none => Except.error PyErr.indexError

/-! ## `remote_mesonet_data` (source lines 62–134) -/

/-- Row-wise concatenation of source lines 128–131: a fresh array of
`old.size + new.size` rows receives yesterday's rows first and today's
after them; column-wise this appends each column's cells. -/
def concatTables (a b : Table) : Table :=
  ⟨(a.cols.zip b.cols).map (fun p => ⟨p.1.name, p.1.cells ++ p.2.cells⟩)⟩

/-- Number of rows of a table (length of its first column). -/
def Table.nrows (t : Table) : Nat :=
  match t.cols with
  | [] => 0
  | c :: _ => c.cells.length

/-- Row `i` of a table: the `i`-th cell of every column in column order. -/
def Table.row (t : Table) (i : Nat) : List (Value × Bool) :=
  t.cols.map (fun c => c.cells.getD i (vDefault, false))

/-- `remote_mesonet_data` (source lines 62–134), abstracted over the
fetch-and-parse composite: `now` models `datetime.utcnow()`, `dayBefore`
models `- timedelta(days=1)`, and `fetchParse` models
`read_mesonet_data(StringIO(_fetch_mesonet_data(t, site)), ...)` at a
given timestamp.  Returns the result together with the list of timestamps
fetched, in call order.  A datetime object is always truthy, so `if yest:`
on source line 127 holds exactly when the yesterday branch ran. -/
def remote_mesonet_data (now : Datetime) (dayBefore : Datetime → Datetime)
    (fetchParse : Datetime → Except PyErr Table)
    (date_time : Option Datetime) (full_day_record : Bool) :
    Except PyErr Table × List Datetime :=
  match date_time with
  | none =>
    if full_day_record then
      let yest := dayBefore now
      match fetchParse yest with
      | Except.error e => (Except.error e, [yest])
      | Except.ok old_data =>
        match fetchParse now with
        | Except.error e => (Except.error e, [yest, now])
        | Except.ok data =>
          (Except.ok (concatTables old_data data), [yest, now])
    else
      match fetchParse now with
      | Except.error e => (Except.error e, [now])
      | Except.ok data => (Except.ok data, [now])
  | some dt_arg =>
    match fetchParse dt_arg with
    | Except.error e => (Except.error e, [dt_arg])
    | Except.ok data => (Except.ok data, [dt_arg])

/-! ## `_fetch_mesonet_data` and its LRU cache (source lines 34–60) -/

/-- Zero-padded decimal rendering of a (non-negative) field for
`strftime`/`%0Nd` formatting. -/
def padNum (width : Nat) (n : Int) : String :=
  let s := toString n.toNat
  if s.length < width then
    (String.mk (List.replicate (width - s.length) '0')) ++ s
  else s

/-- `date_time.strftime('%Y%m%d%H%M')` (source line 47). -/
def strftimeYmdHM (t : Datetime) : String :=
  padNum 4 t.year ++ padNum 2 t.month ++ padNum 2 t.day ++
    padNum 2 t.hour ++ padNum 2 t.minute

/-- `date_time.strftime('%Y%m%d')` (source line 50). -/
def strftimeYmd (t : Datetime) : String :=
  padNum 4 t.year ++ padNum 2 t.month ++ padNum 2 t.day

/-- The URL template of source line 55, applied as on line 58 — note the
source passes `path + fname` as the `dir` argument. -/
def mesonetUrl (dir fname : String) : String :=
  "http://www.mesonet.org/public/data/getfile.php?dir=" ++ dir ++
    "&filename=" ++ fname

/-- The body of `_fetch_mesonet_data` (source lines 35–60), before the
`lru_cache` decorator is applied.  `net` models
`urllib2.urlopen(url).read()`; the returned `Nat` counts the network
requests the call issued (1 when `urlopen` is reached, 0 otherwise).

`globalDt` models the module-global name `dt`: the flooring expression on
source line 45 reads `dt.minute`, but `dt` is never assigned at module
scope when the module is imported as a library (it is only assigned inside
the `if __name__ == '__main__'` block), so evaluating it raises
`NameError`.  The parameter keeps the embedding total: `none` is the
library situation, `some g` the script situation where a global `dt`
happens to exist — in which case the flooring uses `g`'s minute field, not
the input timestamp's. -/
def fetchMesonetDataBody (globalDt : Option Datetime) (net : String → String)
    (date_time : Datetime) (site : Option String) :
    Except PyErr String × Nat :=
  match site with
  | none =>
    match globalDt with
    | none => (Except.error PyErr.nameError, 0)
    | some g =>
      let fl : Datetime :=
        ⟨date_time.year, date_time.month, date_time.day, date_time.hour,
          g.minute - g.minute % 5, 0, 0⟩
      let fname := strftimeYmdHM fl ++ ".mdf"
      let path := "/mdf/" ++ padNum 4 fl.year ++ "/" ++ padNum 2 fl.month ++
        "/" ++ padNum 2 fl.day ++ "/"
      (Except.ok (net (mesonetUrl (path ++ fname) fname)), 1)
  | some s =>
    let fname := strftimeYmd date_time ++ strLower s ++ ".mts"
    let path := "/mts/" ++ padNum 4 date_time.year ++ "/" ++
      padNum 2 date_time.month ++ "/" ++ padNum 2 date_time.day ++ "/"
    (Except.ok (net (mesonetUrl (path ++ fname) fname)), 1)

/-- A key of the memoisation cache: the argument tuple of the decorated
function, i.e. the *raw* `(date_time, site)` pair as passed by the
caller. -/
abbrev FetchKey : Type := Datetime × Option String

/-- Modelled from the spec: the `lru_cache` decorator from `metpy.cbook`
(only imported by the source file; not under src/).  Per the spec it is a
bounded memoisation cache (capacity `maxsize`, 20 at the decoration site)
keyed by the wrapped function's argument tuple, with least-recently-used
eviction.  Entries are kept most-recently-used first. -/
structure LruCache where
  maxsize : Nat
  entries : List (FetchKey × String)

/-- Cache lookup. -/
def LruCache.get (c : LruCache) (k : FetchKey) : Option String :=
  (c.entries.find? (fun e => decide (e.1 = k))).map (fun e => e.2)

/-- Mark `k` most recently used (cache hit). -/
def LruCache.touch (c : LruCache) (k : FetchKey) : LruCache :=
  match c.entries.find? (fun e => decide (e.1 = k)) with
  | none => c
  | some e =>
    ⟨c.maxsize, e :: c.entries.filter (fun e' => decide (¬ e'.1 = k))⟩

/-- Insert a fresh entry, evicting the least-recently-used one when the
capacity is exceeded. -/
def LruCache.put (c : LruCache) (k : FetchKey) (v : String) : LruCache :=
  ⟨c.maxsize, ((k, v) :: c.entries.filter (fun e => decide (¬ e.1 = k))).take
    c.maxsize⟩

/-- `_fetch_mesonet_data` as actually called: the `lru_cache`-decorated
body.  On a hit the memoised bytes are returned without running the body;
on a miss the body runs and a successful result is memoised (a raised
exception is not cached).  Returns (result, new cache state, number of
network requests issued by this call). -/
def fetchMesonetData (globalDt : Option Datetime) (net : String → String)
    (cache : LruCache) (date_time : Datetime) (site : Option String) :
    Except PyErr String × LruCache × Nat :=
  let k : FetchKey := (date_time, site)
  match cache.get k with
  | some v => (Except.ok v, cache.touch k, 0)
  | none =>
    match fetchMesonetDataBody globalDt net date_time site with
    | (Except.ok v, n) => (Except.ok v, cache.put k v, n)
    | (Except.error e, n) => (Except.error e, cache, n)

/-- The two-call scenario of claim C1: two snapshot fetches (no station id)
through one cache, started empty with the decorated capacity of 20.
Returns both results and the total number of network requests issued. -/
def twoSnapshotFetches (globalDt : Option Datetime) (net : String → String)
    (t1 t2 : Datetime) : Except PyErr String × Except PyErr String × Nat :=
  match fetchMesonetData globalDt net ⟨20, []⟩ t1 none with
  | (r1, c1, n1) =>
    match fetchMesonetData globalDt net c1 t2 none with
    | (r2, _, n2) => (r1, r2, n1 + n2)

/-! ## Claim theorems: the fetch path (C1, C2) -/

/-- C2 (code bug): a snapshot fetch (no station id) does not floor the
input timestamp and build the `YYYYMMDDHHMM.mdf` filename — the flooring
expression on source line 45 reads the unbound module name `dt`, so the
call raises `NameError` before reaching the network; evaluated here at
2008-11-20 12:03:00. -/
theorem fetchSnapshotNameError :
    fetchMesonetDataBody none (fun _ => "BYTES")
      ⟨2008, 11, 20, 12, 3, 0, 0⟩ none
      = (Except.error PyErr.nameError, 0) := rfl

/-- C1 (code bug): two snapshot fetch calls at 12:01 and 12:03 of the same
5-minute window do not result in one network request and a memoised second
answer — both calls raise `NameError` (unbound `dt` on source line 45) and
zero network requests are issued.  Independently, the `lru_cache` decorator
wraps the whole function, so its key is the raw `(date_time, site)`
argument pair: the flooring (had it worked) happens inside the memoised
body and never reaches the cache key. -/
theorem fetchTwoCallsSameWindow :
    twoSnapshotFetches none (fun _ => "BYTES")
      ⟨2008, 11, 20, 12, 1, 0, 0⟩ ⟨2008, 11, 20, 12, 3, 0, 0⟩
      = (Except.error PyErr.nameError, Except.error PyErr.nameError, 0) :=
  rfl

/-! ## Claim theorems: rename/lookup interaction (C3) -/

/-- A one-row snapshot file with the STID, TIME and TAIR columns. -/
def fileStidRename : MesonetFile :=
  ⟨" 101 Oklahoma Mesonet", [101, 2008, 11, 20],
   ["STID", "TIME", "TAIR"],
   [[Value.strV "nrmn", Value.intV 0, Value.intV 21]]⟩

/-- A station table containing the file's station. -/
def staStidRename : List StationRec :=
  [⟨"nrmn", Value.intV 35, Value.intV (-97), Value.intV 357⟩]

/-- C3 (code bug): `read_mesonet_data` with both `rename_fields=True` and
`lookup_stids=True` does not succeed — the renaming step (source lines
214–218) maps the column name `STID` to `site` before the enrichment step
(source line 231) reads `data['STID']`, so the station lookup raises a
missing-field error instead of appending latitude/longitude/elevation. -/
theorem readRenameLookupKeyError :
    read_mesonet_data fileStidRename none true true true staStidRename
      = Except.error PyErr.keyError := rfl

/-! ## Claim theorems: explicit-date fetch (C10) -/

/-- C10: with an explicit (non-`None`) `date_time`, `remote_mesonet_data`
performs exactly one fetch-and-parse — at that timestamp — and returns its
result alone; the `full_day_record` flag does not appear in the result,
since yesterday's data is fetched only when `date_time` is `None`. -/
theorem explicitDateSingleFetch (now : Datetime)
    (dayBefore : Datetime → Datetime)
    (fetchParse : Datetime → Except PyErr Table)
    (dt_arg : Datetime) (full_day_record : Bool) :
    remote_mesonet_data now dayBefore fetchParse (some dt_arg)
      full_day_record = (fetchParse dt_arg, [dt_arg]) := by
  cases h : fetchParse dt_arg <;> simp [remote_mesonet_data, h]

/-! ## Claim theorems: full-day assembly (C7) -/

/-- Reading row `i < R1` of the concatenation reads yesterday's row `i`. -/
theorem concatRowLeft (i R1 : Nat) (d : Value × Bool) :
    ∀ (as bs : List Column), as.length = bs.length →
      (∀ c ∈ as, c.cells.length = R1) → i < R1 →
      ((as.zip bs).map (fun p =>
          Column.mk p.1.name (p.1.cells ++ p.2.cells))).map
          (fun c => c.cells.getD i d)
        = as.map (fun c => c.cells.getD i d) := by
  intro as
  induction as with
  | nil => intro bs _ _ _; simp
  | cons a as ih =>
    intro bs hlen hA hi
    cases bs with
    | nil => simp at hlen
    | cons b bs =>
      simp only [List.zip_cons_cons, List.map_cons]
      congr 1
      · exact List.getD_append _ _ _ _
          (by rw [hA a (List.mem_cons_self a as)]; exact hi)
      · exact ih bs (by simpa using hlen)
          (fun c hc => hA c (List.mem_cons_of_mem a hc)) hi

/-- Reading row `R1 + i` of the concatenation reads today's row `i`. -/
theorem concatRowRight (i R1 : Nat) (d : Value × Bool) :
    ∀ (as bs : List Column), as.length = bs.length →
      (∀ c ∈ as, c.cells.length = R1) →
      ((as.zip bs).map (fun p =>
          Column.mk p.1.name (p.1.cells ++ p.2.cells))).map
          (fun c => c.cells.getD (R1 + i) d)
        = bs.map (fun c => c.cells.getD i d) := by
  intro as
  induction as with
  | nil =>
    intro bs hlen _
    cases bs with
    | nil => rfl
    | cons b bs => simp at hlen
  | cons a as ih =>
    intro bs hlen hA
    cases bs with
    | nil => simp at hlen
    | cons b bs =>
      simp only [List.zip_cons_cons, List.map_cons]
      congr 1
      · have hla : a.cells.length = R1 := hA a (List.mem_cons_self a as)
        rw [List.getD_append_right _ _ _ _ (by omega)]
        congr 1
        omega
      · exact ih bs (by simpa using hlen)
          (fun c hc => hA c (List.mem_cons_of_mem a hc))

/-- C7: with `full_day_record=true` (and no explicit date), the assembly
fetch-parses yesterday then today and returns their row concatenation:
`R1 + R2` rows, the first `R1` identical in value and order to yesterday's
table, the remaining `R2` identical to today's. -/
theorem fullDayConcat (now : Datetime) (dayBefore : Datetime → Datetime)
    (fetchParse : Datetime → Except PyErr Table)
    (ta tb : Table) (R1 R2 : Nat)
    (hfa : fetchParse (dayBefore now) = Except.ok ta)
    (hfb : fetchParse now = Except.ok tb)
    (hnames : ta.cols.map (fun c => c.name) = tb.cols.map (fun c => c.name))
    (hcols : ta.cols ≠ [])
    (hA : ∀ c ∈ ta.cols, c.cells.length = R1)
    (hB : ∀ c ∈ tb.cols, c.cells.length = R2) :
    remote_mesonet_data now dayBefore fetchParse none true
        = (Except.ok (concatTables ta tb), [dayBefore now, now])
      ∧ (concatTables ta tb).nrows = R1 + R2
      ∧ (∀ i, i < R1 → (concatTables ta tb).row i = ta.row i)
      ∧ (∀ i, i < R2 → (concatTables ta tb).row (R1 + i) = tb.row i) := by
  have hlen : ta.cols.length = tb.cols.length := by
    have := congrArg List.length hnames
    simpa using this
  refine ⟨?_, ?_, ?_, ?_⟩
  · simp [remote_mesonet_data, hfa, hfb]
  · cases hta : ta.cols with
    | nil => exact absurd hta hcols
    | cons ca cas =>
      cases htb : tb.cols with
      | nil => rw [hta, htb] at hlen; simp at hlen
      | cons cb cbs =>
        have hca : ca.cells.length = R1 := hA ca (by rw [hta]; simp)
        have hcb : cb.cells.length = R2 := hB cb (by rw [htb]; simp)
        simp [concatTables, Table.nrows, hta, htb, hca, hcb]
  · intro i hi
    unfold concatTables Table.row
    simp only
    exact concatRowLeft i R1 _ ta.cols tb.cols hlen hA hi
  · intro i hi
    unfold concatTables Table.row
    simp only
    exact concatRowRight i R1 _ ta.cols tb.cols hlen hA

/-- Witness for C7: two concrete one-column tables of 2 and 1 rows. -/
theorem fullDayConcat_witness :
    remote_mesonet_data ⟨2008, 11, 20, 12, 0, 0, 0⟩
        (fun _ => ⟨2008, 11, 19, 12, 0, 0, 0⟩)
        (fun t =>
          if t.day = 19 then
            Except.ok ⟨[⟨"TAIR", [(Value.intV 1, false), (Value.intV 2, false)]⟩]⟩
          else
            Except.ok ⟨[⟨"TAIR", [(Value.intV 3, false)]⟩]⟩)
        none true
      = (Except.ok (concatTables
          ⟨[⟨"TAIR", [(Value.intV 1, false), (Value.intV 2, false)]⟩]⟩
          ⟨[⟨"TAIR", [(Value.intV 3, false)]⟩]⟩),
         [⟨2008, 11, 19, 12, 0, 0, 0⟩, ⟨2008, 11, 20, 12, 0, 0, 0⟩]) :=
  (fullDayConcat ⟨2008, 11, 20, 12, 0, 0, 0⟩
    (fun _ => ⟨2008, 11, 19, 12, 0, 0, 0⟩)
    (fun t =>
      if t.day = 19 then
        Except.ok ⟨[⟨"TAIR", [(Value.intV 1, false), (Value.intV 2, false)]⟩]⟩
      else
        Except.ok ⟨[⟨"TAIR", [(Value.intV 3, false)]⟩]⟩)
    ⟨[⟨"TAIR", [(Value.intV 1, false), (Value.intV 2, false)]⟩]⟩
    ⟨[⟨"TAIR", [(Value.intV 3, false)]⟩]⟩ 2 1
    rfl rfl (by decide) (by decide)
    (by decide) (by decide)).1

/-! ## Claim theorems: `get_last_time` (C6, C9) -/

/-- Prepending an element does not change a nonempty list's last element. -/
theorem getLast?_cons_some {α : Type} (a v : α) (l : List α)
    (h : l.getLast? = some v) : (a :: l).getLast? = some v := by
  cases l with
  | nil => simp at h
  | cons b l => rw [List.getLast?_cons_cons]; exact h

/-- When every mask bit is false, the boolean-mask selection is empty. -/
theorem filterZipAllFalse {α : Type} :
    ∀ (ds : List α) (bs : List Bool), (∀ b ∈ bs, b = false) →
      (ds.zip bs).filter (fun p => p.2) = [] := by
  intro ds
  induction ds with
  | nil => intro bs _; simp
  | cons x ds ih =>
    intro bs hall
    cases bs with
    | nil => simp
    | cons b bs =>
      have hb : b = false := hall b (List.mem_cons_self b bs)
      simp only [List.zip_cons_cons, List.filter_cons, hb]
      exact ih bs (fun b' hb' => hall b' (List.mem_cons_of_mem b hb'))

/-- The last element of a boolean-mask selection is the element at the last
true index. -/
theorem lastOfMaskSelection {α : Type} (d : α) :
    ∀ (ds : List α) (bs : List Bool) (i : Nat),
      ds.length = bs.length → i < bs.length → bs.getD i false = true →
      (∀ j, j < bs.length → i < j → bs.getD j false = false) →
      (((ds.zip bs).filter (fun p => p.2)).map Prod.fst).getLast?
        = some (ds.getD i d) := by
  intro ds
  induction ds with
  | nil =>
    intro bs i hlen hi _ _
    rw [← hlen] at hi
    simp at hi
  | cons x ds ih =>
    intro bs i hlen hi hgood htrail
    cases bs with
    | nil => simp at hi
    | cons b bs =>
      cases i with
      | zero =>
        have hb : b = true := hgood
        have hallf : ∀ b' ∈ bs, b' = false := by
          intro b' hb'
          rcases List.mem_iff_getElem.mp hb' with ⟨j, hj, rfl⟩
          have := htrail (j + 1) (by simpa using Nat.succ_lt_succ hj)
            (Nat.succ_pos j)
          rw [List.getD_cons_succ] at this
          rw [← List.getD_eq_getElem bs false hj]
          exact this
        simp only [List.zip_cons_cons, List.filter_cons, hb]
        rw [filterZipAllFalse ds bs hallf]
        rfl
      | succ k =>
        have hlen' : ds.length = bs.length := by simpa using hlen
        have hk : k < bs.length := by simpa using hi
        have hgood' : bs.getD k false = true := hgood
        have htrail' : ∀ j, j < bs.length → k < j → bs.getD j false = false :=
          fun j hj hkj =>
            htrail (j + 1) (by simpa using Nat.succ_lt_succ hj)
              (Nat.succ_lt_succ hkj)
        have hIH := ih bs k hlen' hk hgood' htrail'
        cases hb : b with
        | true =>
          simp only [List.zip_cons_cons, List.filter_cons, hb,
            List.map_cons, List.getD_cons_succ]
          exact getLast?_cons_some _ _ _ hIH
        | false =>
          simp only [List.zip_cons_cons, List.filter_cons, hb,
            List.getD_cons_succ]
          exact hIH

/-- `getD` through `map`, at an in-bounds index (the defaults are
irrelevant). -/
theorem getD_map_lt {α β : Type} (f : α → β) (l : List α) (i : Nat)
    (d : β) (d' : α) (hi : i < l.length) :
    (l.map f).getD i d = f (l.getD i d') := by
  rw [List.getD_eq_getElem (l.map f) d (by simpa using hi),
    List.getD_eq_getElem l d' hi]
  simp

/-- C6: when the reference column has a row whose raw value differs from
−996 at position `i` and every later row's raw value is −996-equal (the
trailing future observations), `get_last_time` returns the datetime cell of
row `i` — the last row in row order whose raw reference value is not the
sentinel, comparing on the raw value and ignoring the mask flag. -/
theorem getLastTimeSkipsFuture (data : Table) (ref_field dt_field : String)
    (refCol dtCol : Column) (i : Nat)
    (href : data.cols.find? (fun c => c.name = ref_field) = some refCol)
    (hdt : data.cols.find? (fun c => c.name = dt_field) = some dtCol)
    (hlen : refCol.cells.length = dtCol.cells.length)
    (hi : i < refCol.cells.length)
    (hgood : rawNe996 (refCol.cells.getD i (vDefault, false)).1 = true)
    (htrail : ∀ j, j < refCol.cells.length → i < j →
      rawNe996 (refCol.cells.getD j (vDefault, false)).1 = false) :
    get_last_time data ref_field dt_field
      = Except.ok (dtCol.cells.getD i (vDefault, false)).1 := by
  unfold get_last_time
  rw [href, hdt]
  simp only
  have hmasklen : (refCol.cells.map (fun cell => rawNe996 cell.1)).length
      = refCol.cells.length := by simp
  have hdslen : (dtCol.cells.map Prod.fst).length = refCol.cells.length := by
    simp [← hlen]
  have hlast := lastOfMaskSelection (d := vDefault)
    (dtCol.cells.map Prod.fst)
    (refCol.cells.map (fun cell => rawNe996 cell.1)) i
    (by rw [hdslen, hmasklen])
    (by rw [hmasklen]; exact hi)
    (by
      rw [getD_map_lt (fun cell => rawNe996 cell.1) refCol.cells i
        false (vDefault, false) hi]
      exact hgood)
    (by
      intro j hj hij
      rw [hmasklen] at hj
      rw [getD_map_lt (fun cell => rawNe996 cell.1) refCol.cells j
        false (vDefault, false) hj]
      exact htrail j hj hij)
  rw [hlast]
  have hidt : i < dtCol.cells.length := by rw [← hlen]; exact hi
  rw [getD_map_lt Prod.fst dtCol.cells i vDefault (vDefault, false) hidt]

/-- Witness for C6: the reference column reads 21, −996, −996; the result
is the datetime of the first row, the last one whose raw value is not
−996. -/
theorem getLastTimeSkipsFuture_witness :
    get_last_time
      ⟨[⟨"TAIR", [(Value.intV 21, false), (Value.intV (-996), false),
          (Value.intV (-996), false)]⟩,
        ⟨"datetime", [(Value.dtV ⟨⟨2008, 11, 20⟩, 5⟩, false),
          (Value.dtV ⟨⟨2008, 11, 20⟩, 10⟩, false),
          (Value.dtV ⟨⟨2008, 11, 20⟩, 15⟩, false)]⟩]⟩
      "TAIR" "datetime"
      = Except.ok (Value.dtV ⟨⟨2008, 11, 20⟩, 5⟩) :=
  getLastTimeSkipsFuture _ "TAIR" "datetime"
    ⟨"TAIR", [(Value.intV 21, false), (Value.intV (-996), false),
      (Value.intV (-996), false)]⟩
    ⟨"datetime", [(Value.dtV ⟨⟨2008, 11, 20⟩, 5⟩, false),
      (Value.dtV ⟨⟨2008, 11, 20⟩, 10⟩, false),
      (Value.dtV ⟨⟨2008, 11, 20⟩, 15⟩, false)]⟩ 0
    rfl rfl rfl (by decide) (by decide) (by decide)

/-- C9: when every row of the reference column carries the raw sentinel
−996, the boolean selection is empty and the final `[-1]` access is out of
bounds: `get_last_time` lands in the error branch instead of returning a
timestamp. -/
theorem getLastTimeAllFuture (data : Table) (ref_field dt_field : String)
    (refCol dtCol : Column)
    (href : data.cols.find? (fun c => c.name = ref_field) = some refCol)
    (hdt : data.cols.find? (fun c => c.name = dt_field) = some dtCol)
    (hall : ∀ cell ∈ refCol.cells, cell.1 = Value.intV (-996)) :
    get_last_time data ref_field dt_field = Except.error PyErr.indexError := by
  unfold get_last_time
  rw [href, hdt]
  simp only
  have hallf : ∀ b ∈ refCol.cells.map (fun cell => rawNe996 cell.1),
      b = false := by
    intro b hb
    rcases List.mem_map.mp hb with ⟨cell, hcell, rfl⟩
    rw [hall cell hcell]
    rfl
  rw [filterZipAllFalse _ _ hallf]
  rfl

/-- Witness for C9: a two-row table whose reference column is all −996. -/
theorem getLastTimeAllFuture_witness :
    get_last_time
      ⟨[⟨"TAIR", [(Value.intV (-996), false), (Value.intV (-996), true)]⟩,
        ⟨"datetime", [(Value.dtV ⟨⟨2008, 11, 20⟩, 0⟩, false),
          (Value.dtV ⟨⟨2008, 11, 20⟩, 5⟩, false)]⟩]⟩
      "TAIR" "datetime"
      = Except.error PyErr.indexError :=
  getLastTimeAllFuture _ "TAIR" "datetime"
    ⟨"TAIR", [(Value.intV (-996), false), (Value.intV (-996), true)]⟩
    ⟨"datetime", [(Value.dtV ⟨⟨2008, 11, 20⟩, 0⟩, false),
      (Value.dtV ⟨⟨2008, 11, 20⟩, 5⟩, false)]⟩
    rfl rfl (by decide)

/-! ## Claim theorems: time conversion (C5) -/

/-- `mapMExc` succeeds pointwise. -/
theorem mapMExc_ok_of {α β : Type} (f : α → Except PyErr β) (g : α → β) :
    ∀ (xs : List α), (∀ x ∈ xs, f x = Except.ok (g x)) →
      mapMExc f xs = Except.ok (xs.map g) := by
  intro xs
  induction xs with
  | nil => intro _; rfl
  | cons x xs ih =>
    intro h
    have hx := h x (List.mem_cons_self x xs)
    have hxs := ih (fun x' hx' => h x' (List.mem_cons_of_mem x hx'))
    unfold mapMExc
    rw [hx, hxs]
    rfl

/-- A successful column build from pointwise-successful conversion. -/
theorem buildColumn_ok
    (conv : String → Option (Value → Except PyErr Value))
    (missing : List Int) (name : String) (raws : List Value)
    (g₀ : Value → Value)
    (h : ∀ raw ∈ raws, applyConv conv name raw = Except.ok (g₀ raw)) :
    buildColumn conv missing name raws
      = Except.ok ⟨name, raws.map
          (fun raw => (g₀ raw, maskCell missing raw))⟩ := by
  unfold buildColumn
  have h2 : ∀ raw ∈ raws,
      (applyConv conv name raw).map (fun v => (v, maskCell missing raw))
        = Except.ok (g₀ raw, maskCell missing raw) := by
    intro raw hr
    rw [h raw hr]
    rfl
  rw [mapMExc_ok_of _ (fun raw => (g₀ raw, maskCell missing raw)) raws h2]
  rfl

/-- Reading every position of a list back with `getD` over its index range
reproduces the list. -/
theorem rangeGetD {α : Type} (d : α) :
    ∀ (l : List α), (List.range l.length).map (fun i => l.getD i d) = l := by
  intro l
  induction l with
  | nil => rfl
  | cons x xs ih =>
    show (List.range (xs.length + 1)).map _ = _
    rw [List.range_succ_eq_map, List.map_cons, List.map_map]
    rw [List.getD_cons_zero]
    congr 1

/-- A name list where every `TIME` was renamed contains no `TIME`. -/
theorem time_not_mem_rename (hs : List String) :
    "TIME" ∉ hs.map (fun s => if s = "TIME" then "datetime" else s) := by
  intro hmem
  rcases List.mem_map.mp hmem with ⟨s, _, heq⟩
  by_cases h : s = "TIME"
  · rw [if_pos h] at heq
    simp at heq
  · rw [if_neg h] at heq
    exact h heq

/-- A renamed name list not containing `TIME` keeps its names. -/
theorem map_rename_id (hs : List String) (h : "TIME" ∉ hs) :
    hs.map (fun s => if s = "TIME" then "datetime" else s) = hs := by
  have : ∀ s ∈ hs, (if s = "TIME" then "datetime" else s) = s := by
    intro s hsm
    rw [if_neg]
    intro hEq
    exact h (hEq ▸ hsm)
  rw [List.map_congr_left this]
  exact List.map_id hs

/-- Behaviour of the `TIME`-to-`datetime` renaming step on a column list
with exactly one `TIME` column and no pre-existing `datetime` column. -/
theorem renameTimeColsSpec :
    ∀ (cols : List Column),
      (cols.map (fun c => c.name)).count "TIME" = 1 →
      "datetime" ∉ cols.map (fun c => c.name) →
      ∃ cols', renameTimeCols cols = Except.ok cols'
        ∧ cols'.map (fun c => c.name)
            = (cols.map (fun c => c.name)).map
                (fun s => if s = "TIME" then "datetime" else s)
        ∧ ∀ c' ∈ cols', c'.name = "datetime" →
            ∃ c ∈ cols, c.name = "TIME" ∧ c'.cells = c.cells := by
  intro cols
  induction cols with
  | nil => intro h _; simp at h
  | cons c cs ih =>
    intro hcount hnodt
    have hnodt' : "datetime" ∉ cs.map (fun c => c.name) := by
      intro hm
      exact hnodt (List.mem_cons_of_mem _ hm)
    by_cases hc : c.name = "TIME"
    · have hcount' : (cs.map (fun c => c.name)).count "TIME" = 0 := by
        rw [List.map_cons, List.count_cons] at hcount
        simp [hc] at hcount
        exact hcount
      have hnoT : "TIME" ∉ cs.map (fun c => c.name) :=
        List.count_eq_zero.mp hcount'
      refine ⟨⟨"datetime", c.cells⟩ :: cs, ?_, ?_, ?_⟩
      · unfold renameTimeCols
        rw [if_pos hc]
      · rw [List.map_cons, List.map_cons, List.map_cons, if_pos hc,
          map_rename_id _ hnoT]
      · intro c' hc' hdtname
        cases hc' with
        | head => exact ⟨c, List.mem_cons_self c cs, hc, rfl⟩
        | tail _ hmem =>
          exact absurd (hdtname ▸ List.mem_map_of_mem (fun c => c.name) hmem)
            hnodt'
    · have hcount' : (cs.map (fun c => c.name)).count "TIME" = 1 := by
        rw [List.map_cons, List.count_cons] at hcount
        simp [hc] at hcount
        exact hcount
      rcases ih hcount' hnodt' with ⟨cs', hok, hnames, hcells⟩
      refine ⟨c :: cs', ?_, ?_, ?_⟩
      · unfold renameTimeCols
        rw [if_neg hc, hok]
        rfl
      · rw [List.map_cons, List.map_cons, List.map_cons, if_neg hc, hnames]
      · intro c' hc' hdtname
        cases hc' with
        | head =>
          exact absurd (hdtname ▸ List.mem_map_of_mem (fun c => c.name)
            (List.mem_cons_self c cs)) hnodt
        | tail _ hmem =>
          rcases hcells c' hmem hdtname with ⟨c₀, hc₀, hT, hcel⟩
          exact ⟨c₀, List.mem_cons_of_mem c hc₀, hT, hcel⟩

/-- The `TIME` converter as a total function on the raw tokens that occur
in a well-formed `TIME` column (all integers). -/
def timeConvTotal (refD : Date) (raw : Value) : Value :=
  match raw with
  | Value.intV t => Value.dtV ⟨refD, t⟩
  | v => v

/-- The converters dictionary built by `read_mesonet_data` when
`convert_time` holds: `{'TIME': lambda t: dt + timedelta(minutes=int(t))}`
(source line 203). -/
def timeConverterMap (refD : Date) :
    String → Option (Value → Except PyErr Value) :=
  fun n => if n = "TIME" then some (timeConv refD) else none

/-- The column that `mloadtxt` produces at header position `i` on a
full-column parse with the `TIME` converter installed. -/
def parsedColumn (refD : Date) (header : List String)
    (rows : List (List Value)) (i : Nat) : Column :=
  ⟨header.getD i "",
   (rows.map (fun r => r.getD i vDefault)).map
     (fun raw =>
       ((if header.getD i "" = "TIME" then timeConvTotal refD raw else raw),
        maskCell missingValues raw))⟩

/-- C5: on a valid two-header-line stream parsed with `convert_time=true`
(no field selection, no renaming, no station lookup), the reference date is
taken from tokens 1–3 of line 2, parsing succeeds, the output's column
names are the header with its unique `TIME` renamed to `datetime` (so no
`TIME` column remains), and the `datetime` column holds
`referenceDate + t minutes` for each row's raw `TIME` value `t`. -/
theorem convertTimeSpec
    (title : String) (tok0 y m d : Int) (rest : List Int)
    (header : List String) (rows : List (List Value))
    (sta : List StationRec) (ts : List Int) (iT : Nat)
    (hiTlt : iT < header.length)
    (hiT : header.getD iT "" = "TIME")
    (huniq : ∀ i, i < header.length → header.getD i "" = "TIME" → i = iT)
    (hcount : header.count "TIME" = 1)
    (hnodt : "datetime" ∉ header)
    (hlen : ∀ r ∈ rows, r.length = header.length)
    (htimes : rows.map (fun r => r.getD iT vDefault) = ts.map Value.intV) :
    ∃ tbl,
      read_mesonet_data ⟨title, tok0 :: y :: m :: d :: rest, header, rows⟩
          none false true false sta = Except.ok tbl
      ∧ tbl.cols.map (fun c => c.name)
          = header.map (fun s => if s = "TIME" then "datetime" else s)
      ∧ "TIME" ∉ tbl.cols.map (fun c => c.name)
      ∧ ∀ c ∈ tbl.cols, c.name = "datetime" →
          c.cells.map Prod.fst
            = ts.map (fun t => Value.dtV ⟨⟨y, m, d⟩, t⟩) := by
  have h_all : (rows.all fun r => r.length = header.length) = true :=
    List.all_eq_true.mpr (fun r hr => decide_eq_true (hlen r hr))
  have hsel : (List.range header.length).filter
      (fun i => keepCol none (header.getD i "")) = List.range header.length :=
    List.filter_eq_self.mpr (fun a _ => rfl)
  have hcols : ∀ i ∈ List.range header.length,
      buildColumn (timeConverterMap ⟨y, m, d⟩) missingValues
        (header.getD i "") (rows.map (fun r => r.getD i vDefault))
      = Except.ok (parsedColumn ⟨y, m, d⟩ header rows i) := by
    intro i hi
    have hilt : i < header.length := List.mem_range.mp hi
    by_cases hT : header.getD i "" = "TIME"
    · have hieq : i = iT := huniq i hilt hT
      subst hieq
      rw [buildColumn_ok _ _ _ _ (timeConvTotal ⟨y, m, d⟩) ?hconv]
      case hconv =>
        intro raw hr
        rw [htimes] at hr
        rcases List.mem_map.mp hr with ⟨t, _, rfl⟩
        rw [hT]
        rfl
      simp only [parsedColumn]
      rw [hT]
      simp
    · rw [buildColumn_ok _ _ _ _ (fun raw => raw) ?hconv2]
      case hconv2 =>
        intro raw _
        unfold applyConv timeConverterMap
        rw [if_neg hT]
      simp only [parsedColumn, if_neg hT]
  have hml : mloadtxt header rows none (timeConverterMap ⟨y, m, d⟩)
        missingValues
      = Except.ok
          ⟨(List.range header.length).map (parsedColumn ⟨y, m, d⟩ header rows)⟩
      := by
    unfold mloadtxt
    rw [if_pos h_all, hsel,
      mapMExc_ok_of _ (parsedColumn ⟨y, m, d⟩ header rows) _ hcols]
    rfl
  have hnames0 : ((List.range header.length).map
        (parsedColumn ⟨y, m, d⟩ header rows)).map (fun c => c.name)
      = header := by
    rw [List.map_map]
    exact rangeGetD "" header
  have hcount0 : (((List.range header.length).map
        (parsedColumn ⟨y, m, d⟩ header rows)).map
        (fun c => c.name)).count "TIME" = 1 := by
    rw [hnames0]; exact hcount
  have hnodt0 : "datetime" ∉ ((List.range header.length).map
        (parsedColumn ⟨y, m, d⟩ header rows)).map (fun c => c.name) := by
    rw [hnames0]; exact hnodt
  obtain ⟨cols', hok', hnames', hcells'⟩ :=
    renameTimeColsSpec _ hcount0 hnodt0
  have hstep :
      read_mesonet_data ⟨title, tok0 :: y :: m :: d :: rest, header, rows⟩
          none false true false sta
        = (match mloadtxt header rows none (timeConverterMap ⟨y, m, d⟩)
              missingValues with
           | Except.error e => Except.error e
           | Except.ok data0 =>
             match (renameTimeCols data0.cols).map
                 (fun cols => Table.mk cols) with
             | Except.error e => Except.error e
             | Except.ok data3 => Except.ok data3) := rfl
  refine ⟨⟨cols'⟩, ?_, ?_, ?_, ?_⟩
  · rw [hstep, hml]
    show (match (renameTimeCols ((List.range header.length).map
        (parsedColumn ⟨y, m, d⟩ header rows))).map
          (fun cols => Table.mk cols) with
      | Except.error e => Except.error e
      | Except.ok data3 => Except.ok data3) = Except.ok ⟨cols'⟩
    rw [hok']
    rfl
  · show cols'.map (fun c => c.name) = _
    rw [hnames', hnames0]
  · show "TIME" ∉ cols'.map (fun c => c.name)
    rw [hnames', hnames0]
    exact time_not_mem_rename header
  · intro c' hc' hdtname
    obtain ⟨c, hcmem, hcT, hcel⟩ := hcells' c' hc' hdtname
    rcases List.mem_map.mp hcmem with ⟨i, hi, rfl⟩
    have hilt : i < header.length := List.mem_range.mp hi
    have hieq : i = iT := huniq i hilt hcT
    subst hieq
    rw [hcel]
    show ((rows.map (fun r => r.getD i vDefault)).map
      (fun raw =>
        ((if header.getD i "" = "TIME" then timeConvTotal ⟨y, m, d⟩ raw
          else raw),
         maskCell missingValues raw))).map Prod.fst = _
    rw [hiT, htimes, List.map_map, List.map_map]
    apply List.map_congr_left
    intro t _
    simp [Function.comp, timeConvTotal]

/-- Witness for C5: a three-column, two-row stream with reference date
2008-11-20; the output has a `datetime` column equal to the reference date
plus 5 and 10 minutes, and no `TIME` column. -/
theorem convertTimeSpec_witness :
    ∃ tbl,
      read_mesonet_data
          ⟨" 101 Oklahoma Mesonet", 101 :: 2008 :: 11 :: 20 :: [],
           ["STID", "TIME", "TAIR"],
           [[Value.strV "nrmn", Value.intV 5, Value.intV 21],
            [Value.strV "acme", Value.intV 10, Value.intV (-991)]]⟩
          none false true false [] = Except.ok tbl
      ∧ tbl.cols.map (fun c => c.name)
          = ["STID", "TIME", "TAIR"].map
              (fun s => if s = "TIME" then "datetime" else s)
      ∧ "TIME" ∉ tbl.cols.map (fun c => c.name)
      ∧ ∀ c ∈ tbl.cols, c.name = "datetime" →
          c.cells.map Prod.fst
            = [(5 : Int), 10].map
                (fun t => Value.dtV ⟨⟨2008, 11, 20⟩, t⟩) :=
  convertTimeSpec " 101 Oklahoma Mesonet" 101 2008 11 20 []
    ["STID", "TIME", "TAIR"]
    [[Value.strV "nrmn", Value.intV 5, Value.intV 21],
     [Value.strV "acme", Value.intV 10, Value.intV (-991)]]
    [] [5, 10] 1
    (by decide) (by decide) (by decide) (by decide) (by decide)
    (by decide) (by decide)

end Mesonet
